import Mathlib

/-!
Verification development for the ZW-Order-Report proxy server.

The JavaScript source (the enrichment pipeline of the order-report proxy)
is shallowly embedded here.  JavaScript values that may be `null` or
`undefined` are modelled as `Option` values; the JavaScript `||` operator
is modelled with explicit truthiness (`some ""` and `some 0` are falsy,
exactly as in JavaScript).  Asynchronous remote calls are modelled by
oracle functions giving the outcome of each outbound request.
-/

set_option autoImplicit false

/-! ### JavaScript value helpers -/

/-- Truthiness of a string-or-null JavaScript value: `null`/`undefined` and
the empty string are falsy, every other string is truthy. -/
def strTruthy : Option String → Bool
  | none => false
  | some s => s != ""

/-- The JavaScript `a || b` operator on string-or-null values. -/
def jsOrS (a b : Option String) : Option String :=
  if strTruthy a then a else b

/-- Truthiness of a number-or-null JavaScript value: `null`/`undefined` and
`0` are falsy. -/
def natTruthy : Option Nat → Bool
  | none => false
  | some n => n != 0

/-- The JavaScript `a || b` operator on number-or-null values. -/
def jsOrN (a b : Option Nat) : Option Nat :=
  if natTruthy a then a else b

/-- A string-or-null value is well formed when it is `none` or a non-empty
string.  Every value stored in the spreadsheet cache has this shape because
the cache builder stores `row[i] || null`. -/
def wfO : Option String → Bool
  | none => true
  | some s => s != ""

/-- The JavaScript `x || ''` coercion used inside template literals. -/
def jsStrOrEmpty (o : Option String) : String := o.getD ("")

/-! ### Data model -/

/-- Platform customer object embedded in an order. -/
structure Customer where
  id : Option Nat
  email : Option String
  first_name : Option String
  last_name : Option String
  phone : Option String
  accepts_marketing : Bool
deriving DecidableEq

/-- Platform shipping/billing address object. -/
structure Address where
  first_name : Option String
  last_name : Option String
  name : Option String
  address1 : Option String
  address2 : Option String
  city : Option String
  province : Option String
  province_code : Option String
  zip : Option String
  country : Option String
  country_code : Option String
  phone : Option String
  company : Option String
deriving DecidableEq

/-- One spreadsheet-cache entry, keyed by normalized order number
(source: `fetchCustomerDataFromSheets`, part_000 lines 145-155). -/
structure SheetEntry where
  first_name : Option String
  last_name : Option String
  email : Option String
  phone : Option String
  address1 : Option String
  city : Option String
  province : Option String
  zip : Option String
  country : Option String
deriving DecidableEq

/-- The normalized customer record synthesized by enrichment. -/
structure CustomerInfo where
  id : Option Nat
  email : Option String
  first_name : Option String
  last_name : Option String
  phone : Option String
  accepts_marketing : Bool
  full_name : Option String
deriving DecidableEq

/-- Variant record fetched for SKU enrichment. -/
structure Variant where
  sku : Option String
  barcode : Option String
deriving DecidableEq

/-- A line item.  `rest` stands for the remaining untyped JavaScript fields
that are carried along unchanged by the object spread. -/
structure LineItem where
  variant_id : Option Nat
  sku : Option String
  barcode : Option String
  name : Option String
  rest : Nat
deriving DecidableEq

/-- A raw transaction as returned by the platform.  `extra` stands for all
the further fields that the enrichment strips away. -/
structure RawTx where
  id : Option Nat
  authorization : Option String
  gateway : Option String
  kind : Option String
  status : Option String
  amount : Option String
  currency : Option String
  receipt : Option String
  created_at : Option String
  extra : Nat
deriving DecidableEq

/-- A transaction attached to an enriched order: exactly the nine fields
kept by the `transactions.map` in `enrichOrderWithTransactions`. -/
structure Tx where
  id : Option Nat
  authorization : Option String
  gateway : Option String
  kind : Option String
  status : Option String
  amount : Option String
  currency : Option String
  receipt : Option String
  created_at : Option String
deriving DecidableEq

/-- An order.  `rest` stands for every further platform field, carried
unchanged through the object spreads of the enrichment functions. -/
structure Order where
  id : Option Nat
  order_number : Option Nat
  number : Option Nat
  email : Option String
  contact_email : Option String
  phone : Option String
  financial_status : Option String
  customer : Option Customer
  shipping_address : Option Address
  billing_address : Option Address
  line_items : Option (List LineItem)
  transactions : Option (List Tx)
  customer_info : Option CustomerInfo
  rest : Nat
deriving DecidableEq

/-! ### Spreadsheet cache (part_000 lines 78-164) -/

/-- The character-level CSV row splitter of `fetchCustomerDataFromSheets`
(part_000 lines 80-97): commas split fields only outside double quotes,
and the double-quote characters themselves are dropped. -/
def csvSplitAux : List Char → Bool → List Char → List (List Char)
  | [], _, current => [current]
  | c :: rest, inQuotes, current =>
    if c = '"' then
      csvSplitAux rest (!inQuotes) current
    else if c = ',' ∧ inQuotes = false then
      current :: csvSplitAux rest inQuotes []
    else
      csvSplitAux rest inQuotes (current ++ [c])

/-- The per-line CSV parser (part_000 lines 79-98). -/
def parseCSVLine (line : String) : List String :=
  (csvSplitAux line.toList false []).map String.mk

/-- Models `row[i]` where `i` is the (possibly absent, when `findIndex` returned
`-1`) column index: an out-of-range access yields `undefined`. -/
def rowField (row : List String) (i : Option Nat) : Option String :=
  i.bind (fun j => row[j]?)

/-- The spreadsheet-cache entry built from one data row
(part_000 lines 145-155): every field is `row[idx] || null`. -/
def sheetEntryOfRow (row : List String)
    (iF iL iE iP iA iC iPr iZ iCo : Option Nat) : SheetEntry :=
  { first_name := jsOrS (rowField row iF) none
    last_name := jsOrS (rowField row iL) none
    email := jsOrS (rowField row iE) none
    phone := jsOrS (rowField row iP) none
    address1 := jsOrS (rowField row iA) none
    city := jsOrS (rowField row iC) none
    province := jsOrS (rowField row iPr) none
    zip := jsOrS (rowField row iZ) none
    country := jsOrS (rowField row iCo) none }

/-- Well-formedness of a cache entry: every field is `none` or truthy.
The cache builder guarantees this (`sheetEntryOfRow_wf` below). -/
def sheetEntryWF (e : SheetEntry) : Bool :=
  wfO e.first_name && wfO e.last_name && wfO e.email && wfO e.phone &&
  wfO e.address1 && wfO e.city && wfO e.province && wfO e.zip && wfO e.country

/-! ### Backoff executor (part_000 lines 181-195, server.js lines 46-60) -/

/-- Outcome of one invocation of the retried operation: success, or a
thrown error whose `error.response?.status` is the given optional code. -/
inductive TryRes (α : Type) where
  | ok (a : α)
  | err (status : Option Nat)
deriving DecidableEq

/-- Observable behaviour of one `retryWithBackoff` run: the value it
resolves with (`Except.ok none` models resolving with `undefined`, i.e.
falling off the loop), the number of invocations of the operation, and the
sleep durations in order. -/
structure RetryRun (α : Type) where
  result : Except (Option Nat) (Option α)
  calls : Nat
  delays : List Nat

/-- The loop of `retryWithBackoff`, with `i` the current 0-based attempt
index and structural recursion on the number of remaining iterations
(`remaining = maxRetries - i`).  An attempt that throws with status 429 is
retried after `initialDelay * 2 ^ i` exactly when `i < maxRetries - 1`,
which is `1 ≤ rem` here. -/
def retryGo {α : Type} (fn : Nat → TryRes α) (initialDelay : Nat) :
    Nat → Nat → RetryRun α
  | _, 0 => ⟨Except.ok none, 0, []⟩
  | i, rem + 1 =>
    match fn i with
    | TryRes.ok a => ⟨Except.ok (some a), 1, []⟩
    | TryRes.err st =>
      if st = some 429 ∧ 0 < rem then
        let r := retryGo fn initialDelay (i + 1) rem
        ⟨r.result, r.calls + 1, initialDelay * 2 ^ i :: r.delays⟩
      else
        ⟨Except.error st, 1, []⟩

/-- Models `retryWithBackoff(fn, maxRetries, initialDelay)`; the source defaults
are `maxRetries = 3`, `initialDelay = 1000`. -/
def retryWithBackoff {α : Type} (fn : Nat → TryRes α)
    (maxRetries initialDelay : Nat) : RetryRun α :=
  retryGo fn initialDelay 0 maxRetries

/-! ### Transaction fetch (part_000 lines 262-280, server.js 127-145) -/

/-- Models `fetchOrderTransactions`: the inner request is retried with the default
backoff parameters; any failure escaping the backoff is swallowed and
reported as the empty list.  The oracle `fn` gives the outcome of each
attempt.  The `Option` result records that a JavaScript function can also
resolve with `undefined`; with `maxRetries = 3` that never happens. -/
def fetchOrderTransactions (fn : Nat → TryRes (List RawTx)) :
    Option (List RawTx) :=
  match (retryWithBackoff fn 3 1000).result with
  | Except.ok v => v
  | Except.error _ => some []

/-! ### Field reconciler (part_000 lines 285-330) -/

/-- Models `order.order_number?.toString() || order.number?.toString()`. -/
def orderNumberKey (o : Order) : Option String :=
  jsOrS (o.order_number.map (fun n => toString n))
        (o.number.map (fun n => toString n))

/-- Models `customerDataCache[orderNumber]`.  When the key expression is
`undefined`, the JavaScript property access coerces it to the string
key `"undefined"`. -/
def lookupSheets (cache : String → Option SheetEntry) (o : Order) :
    Option SheetEntry :=
  match orderNumberKey o with
  | some s => cache s
  | none => cache ("undefined")

/-- Models `order.customer?.f` for a string field `f`. -/
def custF (o : Order) (f : Customer → Option String) : Option String :=
  o.customer.bind f

/-- Models `order.shipping_address?.f`. -/
def shipF (o : Order) (f : Address → Option String) : Option String :=
  o.shipping_address.bind f

/-- Models `order.billing_address?.f`. -/
def billF (o : Order) (f : Address → Option String) : Option String :=
  o.billing_address.bind f

/-- Models `sheetsData?.f`. -/
def sheetF (sd : Option SheetEntry) (f : SheetEntry → Option String) :
    Option String :=
  sd.bind f

/-- Models `Array.prototype.join(' ')`. -/
def joinSpace : List String → String
  | [] => ""
  | [s] => s
  | s :: rest => s ++ " " ++ joinSpace rest

/-- The full-name synthesis (part_000 lines 302-304, server.js 166-168):
`if (first || last) full = [first, last].filter(Boolean).join(' ')`,
otherwise the field keeps its initial `null`. -/
def fullNameOf (first last : Option String) : Option String :=
  if strTruthy first || strTruthy last then
    some (joinSpace (([first, last].filterMap id).filter (fun s => s != "")))
  else none

/-- The normalized customer record of server.js lines 155-168: built purely
from platform fields (customer object, then order-level fallbacks, then
shipping/billing address fallbacks, then null).  This is also the
spreadsheet-free layer of the part_000 reconciler. -/
def serverCustomerInfo (o : Order) : CustomerInfo :=
  let first := jsOrS (custF o Customer.first_name)
      (jsOrS (shipF o Address.first_name) (jsOrS (billF o Address.first_name) none))
  let last := jsOrS (custF o Customer.last_name)
      (jsOrS (shipF o Address.last_name) (jsOrS (billF o Address.last_name) none))
  { id := jsOrN (o.customer.bind Customer.id) none
    email := jsOrS (custF o Customer.email)
      (jsOrS o.email (jsOrS o.contact_email none))
    first_name := first
    last_name := last
    phone := jsOrS (custF o Customer.phone)
      (jsOrS o.phone (jsOrS (shipF o Address.phone) (jsOrS (billF o Address.phone) none)))
    accepts_marketing := (o.customer.map Customer.accepts_marketing).getD false
    full_name := fullNameOf first last }

/-- The normalized customer record of part_000 lines 291-304: each field is
`sheetsData?.f || <platform chain>`. -/
def customerInfoOf (cache : String → Option SheetEntry) (o : Order) :
    CustomerInfo :=
  let sd := lookupSheets cache o
  let first := jsOrS (sheetF sd SheetEntry.first_name)
      (jsOrS (custF o Customer.first_name)
        (jsOrS (shipF o Address.first_name) (jsOrS (billF o Address.first_name) none)))
  let last := jsOrS (sheetF sd SheetEntry.last_name)
      (jsOrS (custF o Customer.last_name)
        (jsOrS (shipF o Address.last_name) (jsOrS (billF o Address.last_name) none)))
  { id := jsOrN (o.customer.bind Customer.id) none
    email := jsOrS (sheetF sd SheetEntry.email)
      (jsOrS (custF o Customer.email)
        (jsOrS o.email (jsOrS o.contact_email none)))
    first_name := first
    last_name := last
    phone := jsOrS (sheetF sd SheetEntry.phone)
      (jsOrS (custF o Customer.phone)
        (jsOrS o.phone (jsOrS (shipF o Address.phone) (jsOrS (billF o Address.phone) none))))
    accepts_marketing := (o.customer.map Customer.accepts_marketing).getD false
    full_name := fullNameOf first last }

/-- The merged shipping address of part_000 lines 307-321. -/
def shippingOf (cache : String → Option SheetEntry) (o : Order) : Address :=
  let sd := lookupSheets cache o
  let ci := customerInfoOf cache o
  { first_name := jsOrS (sheetF sd SheetEntry.first_name)
      (jsOrS (shipF o Address.first_name) ci.first_name)
    last_name := jsOrS (sheetF sd SheetEntry.last_name)
      (jsOrS (shipF o Address.last_name) ci.last_name)
    name := if strTruthy (sheetF sd SheetEntry.first_name) ||
               strTruthy (sheetF sd SheetEntry.last_name) then
        some (String.trim (jsStrOrEmpty (sheetF sd SheetEntry.first_name) ++ " " ++
          jsStrOrEmpty (sheetF sd SheetEntry.last_name)))
      else o.shipping_address.bind Address.name
    address1 := jsOrS (sheetF sd SheetEntry.address1)
      (jsOrS (shipF o Address.address1) none)
    address2 := jsOrS (shipF o Address.address2) none
    city := jsOrS (sheetF sd SheetEntry.city) (jsOrS (shipF o Address.city) none)
    province := jsOrS (sheetF sd SheetEntry.province)
      (jsOrS (shipF o Address.province) none)
    province_code := jsOrS (shipF o Address.province_code) none
    zip := jsOrS (sheetF sd SheetEntry.zip) (jsOrS (shipF o Address.zip) none)
    country := jsOrS (sheetF sd SheetEntry.country)
      (jsOrS (shipF o Address.country) none)
    country_code := jsOrS (shipF o Address.country_code) none
    phone := jsOrS (sheetF sd SheetEntry.phone)
      (jsOrS (shipF o Address.phone) ci.phone)
    company := jsOrS (shipF o Address.company) none }

/-! The platform-only fallback chains named by the precedence claim: what
each sheet-influenced field of the merged shipping address evaluates to
when the spreadsheet supplies nothing for it.  The customer-record
counterparts are the fields of `serverCustomerInfo`. -/

/-- Platform-only value of the merged shipping first name. -/
def platformShipFirstName (o : Order) : Option String :=
  jsOrS (shipF o Address.first_name) (serverCustomerInfo o).first_name

/-- Platform-only value of the merged shipping last name. -/
def platformShipLastName (o : Order) : Option String :=
  jsOrS (shipF o Address.last_name) (serverCustomerInfo o).last_name

/-- Platform-only value of the merged shipping address line. -/
def platformShipAddress1 (o : Order) : Option String :=
  jsOrS (shipF o Address.address1) none

/-- Platform-only value of the merged shipping city. -/
def platformShipCity (o : Order) : Option String :=
  jsOrS (shipF o Address.city) none

/-- Platform-only value of the merged shipping province. -/
def platformShipProvince (o : Order) : Option String :=
  jsOrS (shipF o Address.province) none

/-- Platform-only value of the merged shipping zip. -/
def platformShipZip (o : Order) : Option String :=
  jsOrS (shipF o Address.zip) none

/-- Platform-only value of the merged shipping country. -/
def platformShipCountry (o : Order) : Option String :=
  jsOrS (shipF o Address.country) none

/-- Platform-only value of the merged shipping phone. -/
def platformShipPhone (o : Order) : Option String :=
  jsOrS (shipF o Address.phone) (serverCustomerInfo o).phone

/-- The customer record stored in the `customer` slot when the platform
supplied none: JavaScript stores the normalized record itself; the typed
projection here drops only the extra `full_name` field. -/
def customerOfInfo (ci : CustomerInfo) : Customer :=
  { id := ci.id, email := ci.email, first_name := ci.first_name
    last_name := ci.last_name, phone := ci.phone
    accepts_marketing := ci.accepts_marketing }

/-- Models `enrichOrderWithCustomerData` (part_000 lines 285-330): the returned
record is the input order with `customer`, `customer_info`,
`shipping_address` and `billing_address` overwritten. -/
def enrichOrderWithCustomerData (cache : String → Option SheetEntry)
    (o : Order) : Order :=
  let ci := customerInfoOf cache o
  { o with
    customer := match o.customer with
      | some c => some c
      | none => some (customerOfInfo ci)
    customer_info := some ci
    shipping_address := some (shippingOf cache o)
    billing_address := o.billing_address }

/-! ### SKU enrichment (part_000 lines 335-391) -/

/-- One iteration of the `enrichLineItemsWithSKU` loop (part_000 lines
360-387).  `vO` is the oracle for `fetchVariantDetails`, which returns
`null` when its request fails.  Note the JavaScript truthiness checks:
an empty-string `sku` counts as missing and a zero `variant_id` counts as
absent. -/
def enrichLineItem (vO : Nat → Option Variant) (item : LineItem) : LineItem :=
  if strTruthy item.sku then item
  else
    match item.variant_id with
    | some vid =>
      if vid = 0 then item
      else
        match vO vid with
        | some var =>
          { item with sku := jsOrS var.sku none
                      barcode := jsOrS var.barcode none }
        | none => item
    | none => item

/-- Models `enrichLineItemsWithSKU` (part_000 lines 356-391): the loop pushes
exactly one (possibly enriched) item per input item. -/
def enrichLineItemsWithSKU (vO : Nat → Option Variant) :
    List LineItem → List LineItem
  | [] => []
  | item :: rest => enrichLineItem vO item :: enrichLineItemsWithSKU vO rest

/-! ### Per-order enrichment (part_000 lines 396-427) -/

/-- Errors a JavaScript expression can throw; the only throw site of the
enrichment body in this embedding is calling `.map` on `undefined`. -/
inductive JsErr where
  | typeError
deriving DecidableEq

/-- The nine-field projection applied to each fetched transaction
(part_000 lines 411-421). -/
def stripTx (t : RawTx) : Tx :=
  { id := t.id, authorization := t.authorization, gateway := t.gateway
    kind := t.kind, status := t.status, amount := t.amount
    currency := t.currency, receipt := t.receipt, created_at := t.created_at }

/-- The SKU step of `enrichOrderWithTransactions` (part_000 lines
401-404): when the order carries a non-empty line-item array, its
`line_items` slot is overwritten with the SKU-enriched items. -/
def skuStage (vO : Nat → Option Variant) (o : Order) : Order :=
  match o.line_items with
  | some items =>
    if 0 < items.length then
      { o with line_items := some (enrichLineItemsWithSKU vO items) }
    else o
  | none => o

/-- The body of the `try` block of `enrichOrderWithTransactions`
(part_000 lines 398-422): customer enrichment, then the SKU stage, then
transaction attachment.  `txO` gives, per order id, the outcome of each
transaction-fetch attempt.  Calling `.map` on an `undefined` transaction
list would throw, which the `Except` records. -/
def enrichOrderBody (cache : String → Option SheetEntry)
    (vO : Nat → Option Variant)
    (txO : Option Nat → Nat → TryRes (List RawTx)) (o : Order) :
    Except JsErr Order :=
  match fetchOrderTransactions
      (txO (skuStage vO (enrichOrderWithCustomerData cache o)).id) with
  | some txs =>
    Except.ok { skuStage vO (enrichOrderWithCustomerData cache o) with
      transactions := some (txs.map stripTx) }
  | none => Except.error JsErr.typeError

/-- The `try { ... } catch { return order; }` wrapper of
`enrichOrderWithTransactions` (part_000 lines 397 and 423-426). -/
def jsTryCatch (r : Except JsErr Order) (fallback : Order) : Order :=
  match r with
  | Except.ok o => o
  | Except.error _ => fallback

/-- Models `enrichOrderWithTransactions` (part_000 lines 396-427). -/
def enrichOrderWithTransactions (cache : String → Option SheetEntry)
    (vO : Nat → Option Variant)
    (txO : Option Nat → Nat → TryRes (List RawTx)) (o : Order) : Order :=
  jsTryCatch (enrichOrderBody cache vO txO o) o

/-! ### Batch loop of the list endpoint (part_000 lines 467-479) -/

/-- Observable behaviour of the batch loop: the concatenated results, the
size of each issued batch, and the sleep durations inserted between
batches. -/
structure BatchRun (β : Type) where
  results : List β
  batchSizes : List Nat
  sleeps : List Nat

/-- The batch loop: `batchSize` is the source constant 5, the inter-batch
delay is the source constant 100, and a delay is inserted exactly when
`i + batchSize < orders.length`, i.e. when more orders remain.  Each batch
is mapped through `f` (the `Promise.all` over
`batch.map(enrichOrderWithTransactions)`, which preserves order). -/
def batchRun {α β : Type} (f : α → β) : List α → BatchRun β
  | [] => ⟨[], [], []⟩
  | a1 :: a2 :: a3 :: a4 :: a5 :: r :: rs =>
    let rest := r :: rs
    let rr := batchRun f rest
    ⟨[f a1, f a2, f a3, f a4, f a5] ++ rr.results,
     5 :: rr.batchSizes,
     100 :: rr.sleeps⟩
  | l => ⟨l.map f, [l.length], []⟩

/-! ### Rendering of CSV rows, used to state the parser property -/

/-- Render one field, optionally wrapped in double quotes. -/
def renderFieldChars : Bool × List Char → List Char
  | (q, cs) => if q then '"' :: cs ++ ['"'] else cs

/-- Render a comma-separated line from a list of fields. -/
def renderLineChars : List (Bool × List Char) → List Char
  | [] => []
  | [f] => renderFieldChars f
  | f :: rest => renderFieldChars f ++ ',' :: renderLineChars rest

/-! ### Concrete fixtures used by the witness theorems -/

/-- An operation that always throws with HTTP status 500. -/
def opFail500 : Nat → TryRes Nat := fun _ => TryRes.err (some 500)

/-- An operation that is rate limited once and then succeeds. -/
def opRetryOnce : Nat → TryRes Nat :=
  fun j => if j = 0 then TryRes.err (some 429) else TryRes.ok 7

/-- A transaction fetch that always throws with HTTP status 500. -/
def txFail500 : Nat → TryRes (List RawTx) := fun _ => TryRes.err (some 500)

/-- A transaction oracle that is rate limited on every attempt. -/
def txOracle429 : Option Nat → Nat → TryRes (List RawTx) :=
  fun _ _ => TryRes.err (some 429)

/-- A concrete raw transaction. -/
def rawTxW : RawTx :=
  { id := some 1, authorization := some ("auth1"), gateway := some ("stripe")
    kind := some ("sale"), status := some ("success"), amount := some ("10.00")
    currency := some ("USD"), receipt := some ("r1")
    created_at := some ("2024-01-01"), extra := 99 }

/-- A transaction oracle that always succeeds with one transaction. -/
def txOracleOk : Option Nat → Nat → TryRes (List RawTx) :=
  fun _ _ => TryRes.ok [rawTxW]

/-- The empty spreadsheet cache. -/
def cacheEmpty : String → Option SheetEntry := fun _ => none

/-- A concrete spreadsheet entry (some fields absent). -/
def sheetEntryW : SheetEntry :=
  { first_name := some ("SheetFirst"), last_name := none
    email := some ("sheet@x.com"), phone := none
    address1 := some ("1 Sheet St"), city := none, province := none
    zip := none, country := some ("EG") }

/-- A cache holding `sheetEntryW` under the key of order number 1033. -/
def cacheW : String → Option SheetEntry :=
  fun k => if k = "1033" then some sheetEntryW else none

/-- A concrete platform customer. -/
def custW : Customer :=
  { id := some 7, email := some ("plat@x.com"), first_name := some ("Jane")
    last_name := some ("Doe"), phone := none, accepts_marketing := false }

/-- A concrete platform shipping address. -/
def shipW : Address :=
  { first_name := some ("ShipF"), last_name := some ("ShipL")
    name := some ("Ship Name"), address1 := some ("2 Plat Ave")
    address2 := none, city := some ("Cairo"), province := none
    province_code := none, zip := none, country := some ("EG")
    country_code := none, phone := some ("0100"), company := none }

/-- A concrete order with order number 1033 and full platform data. -/
def orderW : Order :=
  { id := some 11, order_number := some 1033, number := some 1033
    email := some ("ord@x.com"), contact_email := none, phone := none
    financial_status := some ("paid"), customer := some custW
    shipping_address := some shipW, billing_address := none
    line_items := none, transactions := none, customer_info := none
    rest := 42 }

/-- An order with every optional field absent. -/
def emptyOrder : Order :=
  { id := none, order_number := none, number := none, email := none
    contact_email := none, phone := none, financial_status := none
    customer := none, shipping_address := none, billing_address := none
    line_items := none, transactions := none, customer_info := none
    rest := 0 }

/-- A concrete variant carrying a SKU. -/
def variantW : Variant := { sku := some ("SKU5"), barcode := none }

/-- A variant oracle that resolves variant 5 to `variantW`. -/
def vOracleW : Nat → Option Variant :=
  fun v => if v = 5 then some variantW else none

/-- A variant oracle whose every fetch fails. -/
def vOracleNone : Nat → Option Variant := fun _ => none

/-- A line item lacking a SKU and referencing variant 5. -/
def itemNoSkuW : LineItem :=
  { variant_id := some 5, sku := none, barcode := none
    name := some ("Bundle"), rest := 1 }

/-- Twelve orders, as fetched by the list endpoint in the batching claim. -/
def ordersW : List Order := List.replicate 12 emptyOrder

/-- The example row of the CSV claim, as rendered fields. -/
def fieldsW : List (Bool × List Char) :=
  [(false, ("1001").toList), (true, ("Doe, Jane").toList),
   (false, ("jane@x.com").toList)]

/-! ## Helper lemmas -/

theorem jsOrS_none_left (b : Option String) : jsOrS none b = b := rfl

theorem jsOrS_some_truthy {s : String} (h : s ≠ "") (b : Option String) :
    jsOrS (some s) b = some s := by
  simp [jsOrS, strTruthy, h]

theorem wfO_jsOrS {b : Option String} (hb : wfO b = true) (a : Option String) :
    wfO (jsOrS a b) = true := by
  cases a with
  | none => simpa [jsOrS, strTruthy]
  | some s =>
    by_cases h : s = ""
    · simpa [jsOrS, strTruthy, h, wfO] using hb
    · simp [jsOrS, strTruthy, h, wfO]

theorem wfO_jsOrS_none (a : Option String) : wfO (jsOrS a none) = true :=
  wfO_jsOrS (by simp [wfO]) a

/-! ### CSV parser lemmas -/

theorem csvSplitAux_nil (q : Bool) (cur : List Char) :
    csvSplitAux [] q cur = [cur] := rfl

theorem csvSplitAux_quote (rest : List Char) (q : Bool) (cur : List Char) :
    csvSplitAux ('"' :: rest) q cur = csvSplitAux rest (!q) cur := rfl

theorem csvSplitAux_comma (rest : List Char) (cur : List Char) :
    csvSplitAux (',' :: rest) false cur = cur :: csvSplitAux rest false [] := rfl

theorem csvSplitAux_other {c : Char} {q : Bool} (h1 : ¬ c = '"')
    (h2 : ¬ (c = ',' ∧ q = false)) (rest cur : List Char) :
    csvSplitAux (c :: rest) q cur = csvSplitAux rest q (cur ++ [c]) := by
  rw [csvSplitAux.eq_def]
  simp only [if_neg h1, if_neg h2]

theorem csvSplitAux_append_outside (cs : List Char) :
    ∀ (cur t : List Char), '"' ∉ cs → ',' ∉ cs →
    csvSplitAux (cs ++ t) false cur = csvSplitAux t false (cur ++ cs) := by
  induction cs with
  | nil => intro cur t _ _; simp
  | cons c cs ih =>
    intro cur t h1 h2
    simp only [List.mem_cons, not_or] at h1 h2
    have hc1 : ¬ (c = '"') := fun hh => h1.1 hh.symm
    have hc2 : ¬ (c = ',' ∧ (false : Bool) = false) := fun hh => h2.1 hh.1.symm
    rw [List.cons_append, csvSplitAux_other hc1 hc2,
      ih (cur ++ [c]) t h1.2 h2.2, List.append_assoc]
    rfl

theorem csvSplitAux_append_inside (cs : List Char) :
    ∀ (cur t : List Char), '"' ∉ cs →
    csvSplitAux (cs ++ t) true cur = csvSplitAux t true (cur ++ cs) := by
  induction cs with
  | nil => intro cur t _; simp
  | cons c cs ih =>
    intro cur t h1
    simp only [List.mem_cons, not_or] at h1
    have hc1 : ¬ (c = '"') := fun hh => h1.1 hh.symm
    have hc2 : ¬ (c = ',' ∧ (true : Bool) = false) := fun hh => nomatch hh.2
    rw [List.cons_append, csvSplitAux_other hc1 hc2,
      ih (cur ++ [c]) t h1.2, List.append_assoc]
    rfl

theorem csvSplitAux_no_quote (l : List Char) :
    ∀ (q : Bool) (cur : List Char), '"' ∉ cur →
    ∀ f ∈ csvSplitAux l q cur, '"' ∉ f := by
  induction l with
  | nil =>
    intro q cur h f hf
    rw [csvSplitAux_nil, List.mem_singleton] at hf
    exact hf ▸ h
  | cons c rest ih =>
    intro q cur h f hf
    by_cases hq : c = '"'
    · subst hq
      rw [csvSplitAux_quote] at hf
      exact ih (!q) cur h f hf
    · by_cases hcm : c = ',' ∧ q = false
      · obtain ⟨hc, hqq⟩ := hcm
        subst hc; subst hqq
        rw [csvSplitAux_comma] at hf
        rcases List.mem_cons.mp hf with rfl | hf
        · exact h
        · exact ih false [] (by simp) f hf
      · rw [csvSplitAux_other hq hcm] at hf
        refine ih q (cur ++ [c]) ?_ f hf
        simp only [List.mem_append, List.mem_singleton, not_or]
        exact ⟨h, fun hh => hq hh.symm⟩

theorem csvSplitAux_render (fields : List (Bool × List Char)) :
    fields ≠ [] →
    (∀ p ∈ fields, '"' ∉ p.2 ∧ (p.1 = false → ',' ∉ p.2)) →
    csvSplitAux (renderLineChars fields) false [] = fields.map Prod.snd := by
  induction fields with
  | nil => intro h; cases h rfl
  | cons f rest ih =>
    intro _ hwf
    obtain ⟨q, cs⟩ := f
    have hf := hwf (q, cs) (List.mem_cons_self _ _)
    have hfq : '"' ∉ cs := hf.1
    cases rest with
    | nil =>
      cases q with
      | false =>
        have h2 : ',' ∉ cs := hf.2 rfl
        show csvSplitAux cs false [] = [cs]
        have happ := csvSplitAux_append_outside cs [] [] hfq h2
        rw [List.append_nil] at happ
        rw [happ, csvSplitAux_nil, List.nil_append]
      | true =>
        show csvSplitAux ('"' :: (cs ++ ['"'])) false [] = [cs]
        rw [csvSplitAux_quote]
        simp only [Bool.not_false]
        rw [csvSplitAux_append_inside cs [] ['"'] hfq]
        rw [csvSplitAux_quote]
        simp only [Bool.not_true]
        rw [csvSplitAux_nil, List.nil_append]
    | cons g rest2 =>
      have hrest : csvSplitAux (renderLineChars (g :: rest2)) false [] =
          (g :: rest2).map Prod.snd :=
        ih (by simp) (fun p hp => hwf p (List.mem_cons_of_mem _ hp))
      cases q with
      | false =>
        have h2 : ',' ∉ cs := hf.2 rfl
        show csvSplitAux (cs ++ ',' :: renderLineChars (g :: rest2)) false []
            = cs :: (g :: rest2).map Prod.snd
        rw [csvSplitAux_append_outside cs [] (',' :: renderLineChars (g :: rest2))
          hfq h2]
        rw [List.nil_append, csvSplitAux_comma, hrest]
      | true =>
        show csvSplitAux (('"' :: (cs ++ ['"'])) ++ ',' :: renderLineChars (g :: rest2))
            false [] = cs :: (g :: rest2).map Prod.snd
        have hl : (('"' :: (cs ++ ['"'])) ++ ',' :: renderLineChars (g :: rest2)) =
            '"' :: (cs ++ '"' :: ',' :: renderLineChars (g :: rest2)) := by
          simp
        rw [hl, csvSplitAux_quote]
        simp only [Bool.not_false]
        rw [csvSplitAux_append_inside cs []
          ('"' :: ',' :: renderLineChars (g :: rest2)) hfq]
        rw [csvSplitAux_quote]
        simp only [Bool.not_true]
        rw [List.nil_append, csvSplitAux_comma, hrest]

/-! ## Claim theorems -/

/-- Claim C8: the row parser splits a CSV line into fields at commas only
when outside double quotes and removes the double-quote characters
themselves: every parsed field is quote-free, rendering any non-empty list
of quote-free fields (unquoted ones also comma-free) and parsing the
rendered line returns exactly the field contents, and the example line
`1001,"Doe, Jane",jane@x.com` parses to its three fields. -/
theorem csv_row_parser_spec :
    parseCSVLine ("1001,\"Doe, Jane\",jane@x.com") =
      [("1001"), ("Doe, Jane"), ("jane@x.com")] ∧
    (∀ (line : String), ∀ f ∈ parseCSVLine line, '"' ∉ f.toList) ∧
    (∀ fields : List (Bool × List Char), fields ≠ [] →
      (∀ p ∈ fields, '"' ∉ p.2 ∧ (p.1 = false → ',' ∉ p.2)) →
      csvSplitAux (renderLineChars fields) false [] = fields.map Prod.snd) := by
  refine ⟨by decide, ?_, csvSplitAux_render⟩
  intro line f hf
  obtain ⟨cs, hcs, rfl⟩ := List.mem_map.mp hf
  exact csvSplitAux_no_quote line.toList false [] (by simp) cs hcs

/-- Witness for claim C8 at the example fields. -/
theorem csv_row_parser_spec_witness :
    fieldsW ≠ [] ∧
    (∀ p ∈ fieldsW, '"' ∉ p.2 ∧ (p.1 = false → ',' ∉ p.2)) ∧
    csvSplitAux (renderLineChars fieldsW) false [] = fieldsW.map Prod.snd :=
  ⟨by decide, by decide,
    csv_row_parser_spec.2.2 fieldsW (by decide) (by decide)⟩

/-! ### Backoff executor lemmas -/

theorem retryGo_spec {α : Type} (fn : Nat → TryRes α) (d : Nat) :
    ∀ (rem : Nat), 1 ≤ rem → ∀ (i : Nat),
    1 ≤ (retryGo fn d i rem).calls ∧
    (retryGo fn d i rem).calls ≤ rem ∧
    (∀ j, j + 1 < (retryGo fn d i rem).calls → fn (i + j) = TryRes.err (some 429)) ∧
    (retryGo fn d i rem).delays =
      (List.range ((retryGo fn d i rem).calls - 1)).map (fun j => d * 2 ^ (i + j)) ∧
    (∀ a, fn (i + (retryGo fn d i rem).calls - 1) = TryRes.ok a →
      (retryGo fn d i rem).result = Except.ok (some a)) ∧
    (∀ st, fn (i + (retryGo fn d i rem).calls - 1) = TryRes.err st →
      (retryGo fn d i rem).result = Except.error st ∧
      (st = some 429 → (retryGo fn d i rem).calls = rem)) := by
  intro rem
  induction rem with
  | zero => intro h; exact absurd h (by omega)
  | succ rem ih =>
    intro _ i
    cases hfn : fn i with
    | ok a =>
      simp only [retryGo, hfn]
      refine ⟨by omega, by omega, by omega, by simp, ?_, ?_⟩
      · intro a' ha'
        simp only [Nat.add_sub_cancel] at ha'
        rw [hfn] at ha'
        cases ha'
        rfl
      · intro st hst
        simp only [Nat.add_sub_cancel] at hst
        rw [hfn] at hst
        cases hst
    | err st =>
      by_cases hc : st = some 429 ∧ 0 < rem
      · have ihh := ih hc.2 (i + 1)
        simp only [retryGo, hfn, if_pos hc]
        obtain ⟨ih1, ih2, ih3, ih4, ih5, ih6⟩ := ihh
        refine ⟨by omega, by omega, ?_, ?_, ?_, ?_⟩
        · intro j hj
          cases j with
          | zero => simpa [hc.1] using hfn
          | succ jj =>
            have hje : i + (jj + 1) = (i + 1) + jj := by omega
            rw [hje]
            exact ih3 jj (by omega)
        · obtain ⟨k, hk⟩ : ∃ k, (retryGo fn d (i + 1) rem).calls = k + 1 :=
            ⟨(retryGo fn d (i + 1) rem).calls - 1, by omega⟩
          rw [ih4, hk]
          simp only [Nat.add_sub_cancel, List.range_succ_eq_map, List.map_cons,
            List.map_map]
          have hhead : d * 2 ^ (i + 0) = d * 2 ^ i := by simp
          rw [hhead]
          have htail : List.map ((fun j => d * 2 ^ (i + j)) ∘ Nat.succ) (List.range k) =
              List.map (fun j => d * 2 ^ (i + 1 + j)) (List.range k) := by
            apply List.map_congr_left
            intro j _
            simp only [Function.comp_apply]
            have hje : i + Nat.succ j = i + 1 + j := by omega
            rw [hje]
          rw [htail]
        · intro a ha
          have hje : i + ((retryGo fn d (i + 1) rem).calls + 1) - 1 =
              (i + 1) + (retryGo fn d (i + 1) rem).calls - 1 := by omega
          rw [hje] at ha
          exact ih5 a ha
        · intro st' hst'
          have hje : i + ((retryGo fn d (i + 1) rem).calls + 1) - 1 =
              (i + 1) + (retryGo fn d (i + 1) rem).calls - 1 := by omega
          rw [hje] at hst'
          obtain ⟨hres, hcl⟩ := ih6 st' hst'
          exact ⟨hres, fun h429 => by rw [hcl h429]⟩
      · simp only [retryGo, hfn, if_neg hc]
        refine ⟨by omega, by omega, by omega, by simp, ?_, ?_⟩
        · intro a ha
          simp only [Nat.add_sub_cancel] at ha
          rw [hfn] at ha
          cases ha
        · intro st' hst'
          simp only [Nat.add_sub_cancel] at hst'
          rw [hfn] at hst'
          cases hst'
          refine ⟨rfl, ?_⟩
          intro h429
          have hnr : ¬ 0 < rem := fun hlt => hc ⟨h429, hlt⟩
          omega

/-- A run with at least one permitted attempt never resolves with
`undefined`. -/
theorem retryGo_result_not_undef {α : Type} (fn : Nat → TryRes α) (d : Nat) :
    ∀ (rem : Nat), 1 ≤ rem → ∀ (i : Nat),
    (retryGo fn d i rem).result ≠ Except.ok none := by
  intro rem
  induction rem with
  | zero => intro h; exact absurd h (by omega)
  | succ rem ih =>
    intro _ i
    cases hfn : fn i with
    | ok a => simp [retryGo, hfn]
    | err st =>
      by_cases hc : st = some 429 ∧ 0 < rem
      · simp only [retryGo, hfn, if_pos hc]
        exact ih hc.2 (i + 1)
      · simp [retryGo, hfn, if_neg hc]

/-- Claim C4, counterexample to the quantification over every retry count:
with a maximum retry count of 0 the loop body never runs, so the operation
is never invoked (0 calls) and the call resolves with `undefined` instead
of propagating the operation's failure. -/
theorem retry_backoff_zero_counterexample :
    (retryWithBackoff opFail500 0 1000).calls = 0 ∧
    (retryWithBackoff opFail500 0 1000).result = Except.ok none :=
  ⟨rfl, rfl⟩

/-- Claim C4 as amended to a positive maximum retry count: the operation is
invoked at least once and at most `maxRetries` times; every invocation
before the last failed rate limited (HTTP 429); after the failed 0-based
attempt `j` the executor waits exactly `initialDelay * 2 ^ j` (no jitter,
no cap); if the last invocation succeeds its value is returned; if it
fails, the failure propagates, and a propagated rate-limited failure occurs
only with retries exhausted. -/
theorem retry_backoff_contract {α : Type} (fn : Nat → TryRes α)
    (m d : Nat) (hm : 1 ≤ m) :
    1 ≤ (retryWithBackoff fn m d).calls ∧
    (retryWithBackoff fn m d).calls ≤ m ∧
    (∀ j, j + 1 < (retryWithBackoff fn m d).calls →
      fn j = TryRes.err (some 429)) ∧
    (retryWithBackoff fn m d).delays =
      (List.range ((retryWithBackoff fn m d).calls - 1)).map
        (fun j => d * 2 ^ j) ∧
    (∀ a, fn ((retryWithBackoff fn m d).calls - 1) = TryRes.ok a →
      (retryWithBackoff fn m d).result = Except.ok (some a)) ∧
    (∀ st, fn ((retryWithBackoff fn m d).calls - 1) = TryRes.err st →
      (retryWithBackoff fn m d).result = Except.error st ∧
      (st = some 429 → (retryWithBackoff fn m d).calls = m)) := by
  have h := retryGo_spec fn d m hm 0
  simpa [retryWithBackoff] using h

/-- Witness for claim C4: one rate-limited attempt, then success on the
second invocation after a single 1000-unit delay. -/
theorem retry_backoff_contract_witness :
    1 ≤ 3 ∧
    (retryWithBackoff opRetryOnce 3 1000).result = Except.ok (some 7) ∧
    (retryWithBackoff opRetryOnce 3 1000).delays = [1000] :=
  ⟨by omega,
   (retry_backoff_contract opRetryOnce 3 1000 (by omega)).2.2.2.2.1 7 rfl,
   rfl⟩

/-! ### Field reconciler lemmas -/

theorem wfO_some {s : String} (h : wfO (some s) = true) : s ≠ "" := by
  simpa [wfO] using h

theorem sheetEntryOfRow_wf (row : List String)
    (iF iL iE iP iA iC iPr iZ iCo : Option Nat) :
    sheetEntryWF (sheetEntryOfRow row iF iL iE iP iA iC iPr iZ iCo) = true := by
  simp [sheetEntryWF, sheetEntryOfRow, wfO_jsOrS_none]

theorem fullNameOf_cases {f l : Option String} (hf : wfO f = true)
    (hl : wfO l = true) :
    (fullNameOf f l = none ↔ f = none ∧ l = none) ∧
    (∀ a, f = some a → l = none → fullNameOf f l = some a) ∧
    (∀ b, f = none → l = some b → fullNameOf f l = some b) ∧
    (∀ a b, f = some a → l = some b → fullNameOf f l = some (a ++ " " ++ b)) := by
  cases f with
  | none =>
    cases l with
    | none => simp [fullNameOf, strTruthy]
    | some b =>
      have hb := wfO_some hl
      simp [fullNameOf, strTruthy, hb, joinSpace]
  | some a =>
    have ha := wfO_some hf
    cases l with
    | none => simp [fullNameOf, strTruthy, ha, joinSpace]
    | some b =>
      have hb := wfO_some hl
      simp [fullNameOf, strTruthy, ha, hb, joinSpace]

theorem customerInfoOf_email (cache : String → Option SheetEntry) (o : Order) :
    (customerInfoOf cache o).email =
      jsOrS (sheetF (lookupSheets cache o) SheetEntry.email)
        (jsOrS (custF o Customer.email)
          (jsOrS o.email (jsOrS o.contact_email none))) := rfl

theorem customerInfoOf_first_name (cache : String → Option SheetEntry)
    (o : Order) :
    (customerInfoOf cache o).first_name =
      jsOrS (sheetF (lookupSheets cache o) SheetEntry.first_name)
        (jsOrS (custF o Customer.first_name)
          (jsOrS (shipF o Address.first_name)
            (jsOrS (billF o Address.first_name) none))) := rfl

theorem customerInfoOf_last_name (cache : String → Option SheetEntry)
    (o : Order) :
    (customerInfoOf cache o).last_name =
      jsOrS (sheetF (lookupSheets cache o) SheetEntry.last_name)
        (jsOrS (custF o Customer.last_name)
          (jsOrS (shipF o Address.last_name)
            (jsOrS (billF o Address.last_name) none))) := rfl

theorem customerInfoOf_phone (cache : String → Option SheetEntry) (o : Order) :
    (customerInfoOf cache o).phone =
      jsOrS (sheetF (lookupSheets cache o) SheetEntry.phone)
        (jsOrS (custF o Customer.phone)
          (jsOrS o.phone
            (jsOrS (shipF o Address.phone)
              (jsOrS (billF o Address.phone) none)))) := rfl

theorem customerInfoOf_full_name (cache : String → Option SheetEntry)
    (o : Order) :
    (customerInfoOf cache o).full_name =
      fullNameOf (customerInfoOf cache o).first_name
        (customerInfoOf cache o).last_name := rfl

theorem serverCustomerInfo_email (o : Order) :
    (serverCustomerInfo o).email =
      jsOrS (custF o Customer.email)
        (jsOrS o.email (jsOrS o.contact_email none)) := rfl

theorem serverCustomerInfo_first_name (o : Order) :
    (serverCustomerInfo o).first_name =
      jsOrS (custF o Customer.first_name)
        (jsOrS (shipF o Address.first_name)
          (jsOrS (billF o Address.first_name) none)) := rfl

theorem serverCustomerInfo_last_name (o : Order) :
    (serverCustomerInfo o).last_name =
      jsOrS (custF o Customer.last_name)
        (jsOrS (shipF o Address.last_name)
          (jsOrS (billF o Address.last_name) none)) := rfl

theorem serverCustomerInfo_phone (o : Order) :
    (serverCustomerInfo o).phone =
      jsOrS (custF o Customer.phone)
        (jsOrS o.phone
          (jsOrS (shipF o Address.phone)
            (jsOrS (billF o Address.phone) none))) := rfl

theorem serverCustomerInfo_full_name (o : Order) :
    (serverCustomerInfo o).full_name =
      fullNameOf (serverCustomerInfo o).first_name
        (serverCustomerInfo o).last_name := rfl

theorem shippingOf_first_name (cache : String → Option SheetEntry) (o : Order) :
    (shippingOf cache o).first_name =
      jsOrS (sheetF (lookupSheets cache o) SheetEntry.first_name)
        (jsOrS (shipF o Address.first_name)
          (customerInfoOf cache o).first_name) := rfl

theorem shippingOf_last_name (cache : String → Option SheetEntry) (o : Order) :
    (shippingOf cache o).last_name =
      jsOrS (sheetF (lookupSheets cache o) SheetEntry.last_name)
        (jsOrS (shipF o Address.last_name)
          (customerInfoOf cache o).last_name) := rfl

theorem shippingOf_address1 (cache : String → Option SheetEntry) (o : Order) :
    (shippingOf cache o).address1 =
      jsOrS (sheetF (lookupSheets cache o) SheetEntry.address1)
        (jsOrS (shipF o Address.address1) none) := rfl

theorem shippingOf_city (cache : String → Option SheetEntry) (o : Order) :
    (shippingOf cache o).city =
      jsOrS (sheetF (lookupSheets cache o) SheetEntry.city)
        (jsOrS (shipF o Address.city) none) := rfl

theorem shippingOf_province (cache : String → Option SheetEntry) (o : Order) :
    (shippingOf cache o).province =
      jsOrS (sheetF (lookupSheets cache o) SheetEntry.province)
        (jsOrS (shipF o Address.province) none) := rfl

theorem shippingOf_zip (cache : String → Option SheetEntry) (o : Order) :
    (shippingOf cache o).zip =
      jsOrS (sheetF (lookupSheets cache o) SheetEntry.zip)
        (jsOrS (shipF o Address.zip) none) := rfl

theorem shippingOf_country (cache : String → Option SheetEntry) (o : Order) :
    (shippingOf cache o).country =
      jsOrS (sheetF (lookupSheets cache o) SheetEntry.country)
        (jsOrS (shipF o Address.country) none) := rfl

theorem shippingOf_phone (cache : String → Option SheetEntry) (o : Order) :
    (shippingOf cache o).phone =
      jsOrS (sheetF (lookupSheets cache o) SheetEntry.phone)
        (jsOrS (shipF o Address.phone)
          (customerInfoOf cache o).phone) := rfl

theorem customerInfoOf_first_wf (cache : String → Option SheetEntry)
    (o : Order) : wfO (customerInfoOf cache o).first_name = true := by
  rw [customerInfoOf_first_name]
  exact wfO_jsOrS (wfO_jsOrS (wfO_jsOrS (wfO_jsOrS_none _) _) _) _

theorem customerInfoOf_last_wf (cache : String → Option SheetEntry)
    (o : Order) : wfO (customerInfoOf cache o).last_name = true := by
  rw [customerInfoOf_last_name]
  exact wfO_jsOrS (wfO_jsOrS (wfO_jsOrS (wfO_jsOrS_none _) _) _) _

theorem serverCustomerInfo_first_wf (o : Order) :
    wfO (serverCustomerInfo o).first_name = true := by
  rw [serverCustomerInfo_first_name]
  exact wfO_jsOrS (wfO_jsOrS (wfO_jsOrS_none _) _) _

theorem serverCustomerInfo_last_wf (o : Order) :
    wfO (serverCustomerInfo o).last_name = true := by
  rw [serverCustomerInfo_last_name]
  exact wfO_jsOrS (wfO_jsOrS (wfO_jsOrS_none _) _) _

/-- Claim C2: for an order with no spreadsheet-cache entry, the normalized
customer record of `enrichOrderWithCustomerData` equals the record built
purely from platform fields, i.e. the server.js construction
(`serverCustomerInfo`): spreadsheet absence is a no-op. -/
theorem no_sheet_entry_noop (cache : String → Option SheetEntry) (o : Order)
    (h : lookupSheets cache o = none) :
    customerInfoOf cache o = serverCustomerInfo o := by
  simp [customerInfoOf, serverCustomerInfo, h, sheetF, jsOrS_none_left]

/-- Witness for claim C2 with the empty cache and a concrete order. -/
theorem no_sheet_entry_noop_witness :
    lookupSheets cacheEmpty orderW = none ∧
    customerInfoOf cacheEmpty orderW = serverCustomerInfo orderW :=
  ⟨rfl, no_sheet_entry_noop cacheEmpty orderW rfl⟩

/-- Claim C3: in every normalized customer record produced by enrichment
(the part_000 reconciler for any cache and order, and the server.js
normalizer), `full_name` is `none` exactly when both names are `none`, and
otherwise it is the space-joined concatenation of the non-null parts. -/
theorem full_name_spec (cache : String → Option SheetEntry) (o : Order) :
    (((customerInfoOf cache o).full_name = none ↔
        (customerInfoOf cache o).first_name = none ∧
        (customerInfoOf cache o).last_name = none) ∧
     (∀ a, (customerInfoOf cache o).first_name = some a →
        (customerInfoOf cache o).last_name = none →
        (customerInfoOf cache o).full_name = some a) ∧
     (∀ b, (customerInfoOf cache o).first_name = none →
        (customerInfoOf cache o).last_name = some b →
        (customerInfoOf cache o).full_name = some b) ∧
     (∀ a b, (customerInfoOf cache o).first_name = some a →
        (customerInfoOf cache o).last_name = some b →
        (customerInfoOf cache o).full_name = some (a ++ " " ++ b))) ∧
    (((serverCustomerInfo o).full_name = none ↔
        (serverCustomerInfo o).first_name = none ∧
        (serverCustomerInfo o).last_name = none) ∧
     (∀ a, (serverCustomerInfo o).first_name = some a →
        (serverCustomerInfo o).last_name = none →
        (serverCustomerInfo o).full_name = some a) ∧
     (∀ b, (serverCustomerInfo o).first_name = none →
        (serverCustomerInfo o).last_name = some b →
        (serverCustomerInfo o).full_name = some b) ∧
     (∀ a b, (serverCustomerInfo o).first_name = some a →
        (serverCustomerInfo o).last_name = some b →
        (serverCustomerInfo o).full_name = some (a ++ " " ++ b))) := by
  constructor
  · rw [customerInfoOf_full_name]
    exact fullNameOf_cases (customerInfoOf_first_wf cache o)
      (customerInfoOf_last_wf cache o)
  · rw [serverCustomerInfo_full_name]
    exact fullNameOf_cases (serverCustomerInfo_first_wf o)
      (serverCustomerInfo_last_wf o)

/-- Witness for claim C3: both names present join with a space. -/
theorem full_name_spec_witness :
    (customerInfoOf cacheEmpty orderW).first_name = some ("Jane") ∧
    (customerInfoOf cacheEmpty orderW).last_name = some ("Doe") ∧
    (customerInfoOf cacheEmpty orderW).full_name = some ("Jane Doe") :=
  ⟨rfl, rfl,
   (full_name_spec cacheEmpty orderW).1.2.2.2 ("Jane") ("Doe") rfl rfl⟩

/-- Claim C1: for an order whose normalized order number has a
spreadsheet-cache entry `e` (well formed, as every built cache entry is),
precedence is applied independently per field: a non-null spreadsheet value
wins over any platform value, and a field the spreadsheet lacks falls back
to the platform chain (platform customer value, then order/address-level
fallback, then null) — for email, first name, last name and phone of the
normalized customer record, and for the eight sheet-influenced fields of
the merged shipping address. -/
theorem sheet_precedence_per_field (cache : String → Option SheetEntry)
    (o : Order) (e : SheetEntry) (hl : lookupSheets cache o = some e)
    (hwf : sheetEntryWF e = true) :
    ((∀ v, e.email = some v → (customerInfoOf cache o).email = some v) ∧
     (e.email = none →
       (customerInfoOf cache o).email = (serverCustomerInfo o).email)) ∧
    ((∀ v, e.first_name = some v →
       (customerInfoOf cache o).first_name = some v) ∧
     (e.first_name = none →
       (customerInfoOf cache o).first_name = (serverCustomerInfo o).first_name)) ∧
    ((∀ v, e.last_name = some v →
       (customerInfoOf cache o).last_name = some v) ∧
     (e.last_name = none →
       (customerInfoOf cache o).last_name = (serverCustomerInfo o).last_name)) ∧
    ((∀ v, e.phone = some v → (customerInfoOf cache o).phone = some v) ∧
     (e.phone = none →
       (customerInfoOf cache o).phone = (serverCustomerInfo o).phone)) ∧
    ((∀ v, e.first_name = some v →
       (shippingOf cache o).first_name = some v) ∧
     (e.first_name = none →
       (shippingOf cache o).first_name = platformShipFirstName o)) ∧
    ((∀ v, e.last_name = some v →
       (shippingOf cache o).last_name = some v) ∧
     (e.last_name = none →
       (shippingOf cache o).last_name = platformShipLastName o)) ∧
    ((∀ v, e.address1 = some v → (shippingOf cache o).address1 = some v) ∧
     (e.address1 = none →
       (shippingOf cache o).address1 = platformShipAddress1 o)) ∧
    ((∀ v, e.city = some v → (shippingOf cache o).city = some v) ∧
     (e.city = none → (shippingOf cache o).city = platformShipCity o)) ∧
    ((∀ v, e.province = some v → (shippingOf cache o).province = some v) ∧
     (e.province = none →
       (shippingOf cache o).province = platformShipProvince o)) ∧
    ((∀ v, e.zip = some v → (shippingOf cache o).zip = some v) ∧
     (e.zip = none → (shippingOf cache o).zip = platformShipZip o)) ∧
    ((∀ v, e.country = some v → (shippingOf cache o).country = some v) ∧
     (e.country = none →
       (shippingOf cache o).country = platformShipCountry o)) ∧
    ((∀ v, e.phone = some v → (shippingOf cache o).phone = some v) ∧
     (e.phone = none →
       (shippingOf cache o).phone = platformShipPhone o)) := by
  simp only [sheetEntryWF, Bool.and_eq_true] at hwf
  obtain ⟨⟨⟨⟨⟨⟨⟨⟨wFn, wLn⟩, wEm⟩, wPh⟩, wA1⟩, wCi⟩, wPr⟩, wZi⟩, wCo⟩ := hwf
  have hsf : ∀ (f : SheetEntry → Option String),
      sheetF (lookupSheets cache o) f = f e := by
    intro f; rw [hl]; rfl
  refine ⟨⟨?_, ?_⟩, ⟨?_, ?_⟩, ⟨?_, ?_⟩, ⟨?_, ?_⟩, ⟨?_, ?_⟩, ⟨?_, ?_⟩,
    ⟨?_, ?_⟩, ⟨?_, ?_⟩, ⟨?_, ?_⟩, ⟨?_, ?_⟩, ⟨?_, ?_⟩, ⟨?_, ?_⟩⟩
  · intro v hv
    rw [customerInfoOf_email, hsf, hv]
    exact jsOrS_some_truthy (wfO_some (hv ▸ wEm)) _
  · intro hv
    rw [customerInfoOf_email, hsf, hv, jsOrS_none_left, serverCustomerInfo_email]
  · intro v hv
    rw [customerInfoOf_first_name, hsf, hv]
    exact jsOrS_some_truthy (wfO_some (hv ▸ wFn)) _
  · intro hv
    rw [customerInfoOf_first_name, hsf, hv, jsOrS_none_left,
      serverCustomerInfo_first_name]
  · intro v hv
    rw [customerInfoOf_last_name, hsf, hv]
    exact jsOrS_some_truthy (wfO_some (hv ▸ wLn)) _
  · intro hv
    rw [customerInfoOf_last_name, hsf, hv, jsOrS_none_left,
      serverCustomerInfo_last_name]
  · intro v hv
    rw [customerInfoOf_phone, hsf, hv]
    exact jsOrS_some_truthy (wfO_some (hv ▸ wPh)) _
  · intro hv
    rw [customerInfoOf_phone, hsf, hv, jsOrS_none_left, serverCustomerInfo_phone]
  · intro v hv
    rw [shippingOf_first_name, hsf, hv]
    exact jsOrS_some_truthy (wfO_some (hv ▸ wFn)) _
  · intro hv
    have hci : (customerInfoOf cache o).first_name =
        (serverCustomerInfo o).first_name := by
      rw [customerInfoOf_first_name, hsf, hv, jsOrS_none_left,
        serverCustomerInfo_first_name]
    simp only [shippingOf_first_name, platformShipFirstName, hsf, hv,
      jsOrS_none_left, hci]
  · intro v hv
    rw [shippingOf_last_name, hsf, hv]
    exact jsOrS_some_truthy (wfO_some (hv ▸ wLn)) _
  · intro hv
    have hci : (customerInfoOf cache o).last_name =
        (serverCustomerInfo o).last_name := by
      rw [customerInfoOf_last_name, hsf, hv, jsOrS_none_left,
        serverCustomerInfo_last_name]
    simp only [shippingOf_last_name, platformShipLastName, hsf, hv,
      jsOrS_none_left, hci]
  · intro v hv
    rw [shippingOf_address1, hsf, hv]
    exact jsOrS_some_truthy (wfO_some (hv ▸ wA1)) _
  · intro hv
    simp only [shippingOf_address1, platformShipAddress1, hsf, hv,
      jsOrS_none_left]
  · intro v hv
    rw [shippingOf_city, hsf, hv]
    exact jsOrS_some_truthy (wfO_some (hv ▸ wCi)) _
  · intro hv
    simp only [shippingOf_city, platformShipCity, hsf, hv, jsOrS_none_left]
  · intro v hv
    rw [shippingOf_province, hsf, hv]
    exact jsOrS_some_truthy (wfO_some (hv ▸ wPr)) _
  · intro hv
    simp only [shippingOf_province, platformShipProvince, hsf, hv,
      jsOrS_none_left]
  · intro v hv
    rw [shippingOf_zip, hsf, hv]
    exact jsOrS_some_truthy (wfO_some (hv ▸ wZi)) _
  · intro hv
    simp only [shippingOf_zip, platformShipZip, hsf, hv, jsOrS_none_left]
  · intro v hv
    rw [shippingOf_country, hsf, hv]
    exact jsOrS_some_truthy (wfO_some (hv ▸ wCo)) _
  · intro hv
    simp only [shippingOf_country, platformShipCountry, hsf, hv,
      jsOrS_none_left]
  · intro v hv
    rw [shippingOf_phone, hsf, hv]
    exact jsOrS_some_truthy (wfO_some (hv ▸ wPh)) _
  · intro hv
    have hci : (customerInfoOf cache o).phone =
        (serverCustomerInfo o).phone := by
      rw [customerInfoOf_phone, hsf, hv, jsOrS_none_left, serverCustomerInfo_phone]
    simp only [shippingOf_phone, platformShipPhone, hsf, hv, jsOrS_none_left, hci]

/-- Witness for claim C1: the cache entry for order 1033 supplies the email
(overriding the platform's non-null email) and lacks the last name (which
falls back to the platform chain). -/
theorem sheet_precedence_per_field_witness :
    lookupSheets cacheW orderW = some sheetEntryW ∧
    sheetEntryWF sheetEntryW = true ∧
    (customerInfoOf cacheW orderW).email = some ("sheet@x.com") ∧
    (customerInfoOf cacheW orderW).last_name =
      (serverCustomerInfo orderW).last_name :=
  ⟨rfl, rfl,
   (sheet_precedence_per_field cacheW orderW sheetEntryW rfl rfl).1.1
     ("sheet@x.com") rfl,
   (sheet_precedence_per_field cacheW orderW sheetEntryW rfl rfl).2.2.1.2 rfl⟩

/-! ### Batch loop lemmas -/

theorem batchRun_cons6 {α β : Type} (f : α → β) (a1 a2 a3 a4 a5 a6 : α)
    (tl : List α) :
    batchRun f (a1 :: a2 :: a3 :: a4 :: a5 :: a6 :: tl) =
      ⟨[f a1, f a2, f a3, f a4, f a5] ++ (batchRun f (a6 :: tl)).results,
       5 :: (batchRun f (a6 :: tl)).batchSizes,
       100 :: (batchRun f (a6 :: tl)).sleeps⟩ := rfl

theorem batchRun_sizes_len {α β : Type} (f : α → β) :
    ∀ (n : Nat) (l : List α), l.length ≤ n →
      (batchRun f l).batchSizes.length = (l.length + 4) / 5 := by
  intro n
  induction n with
  | zero =>
    intro l h
    have hl : l = [] := List.length_eq_zero.mp (by omega)
    subst hl
    simp [batchRun]
  | succ n ih =>
    intro l h
    rcases l with _ | ⟨a1, _ | ⟨a2, _ | ⟨a3, _ | ⟨a4, _ | ⟨a5, _ | ⟨a6, tl⟩⟩⟩⟩⟩⟩
    · simp [batchRun]
    · simp [batchRun]
    · simp [batchRun]
    · simp [batchRun]
    · simp [batchRun]
    · simp [batchRun]
    · rw [batchRun_cons6]
      have hlen : (a6 :: tl).length ≤ n := by
        simp only [List.length_cons] at h ⊢
        omega
      have hr := ih (a6 :: tl) hlen
      simp only [List.length_cons] at hr ⊢
      omega

/-- Claim C5: with transaction inclusion enabled, 12 fetched orders are
processed by the batch loop in exactly 3 batches of sizes 5, 5 and 2, a
100-unit delay is inserted after every batch except the last, the enriched
results preserve the original order ordering, and in general the loop
issues `ceil(N / 5)` batches for `N` orders. -/
theorem batch_schedule_12 (cache : String → Option SheetEntry)
    (vO : Nat → Option Variant) (txO : Option Nat → Nat → TryRes (List RawTx))
    (orders : List Order) (h : orders.length = 12) :
    (batchRun (enrichOrderWithTransactions cache vO txO) orders).batchSizes =
      [5, 5, 2] ∧
    (batchRun (enrichOrderWithTransactions cache vO txO) orders).sleeps =
      [100, 100] ∧
    (batchRun (enrichOrderWithTransactions cache vO txO) orders).results =
      orders.map (enrichOrderWithTransactions cache vO txO) ∧
    (∀ (l : List Order),
      (batchRun (enrichOrderWithTransactions cache vO txO) l).batchSizes.length =
        (l.length + 4) / 5) := by
  rcases orders with _ | ⟨a1, orders⟩
  · exact absurd h (by simp)
  rcases orders with _ | ⟨a2, orders⟩
  · exact absurd h (by simp)
  rcases orders with _ | ⟨a3, orders⟩
  · exact absurd h (by simp)
  rcases orders with _ | ⟨a4, orders⟩
  · exact absurd h (by simp)
  rcases orders with _ | ⟨a5, orders⟩
  · exact absurd h (by simp)
  rcases orders with _ | ⟨a6, orders⟩
  · exact absurd h (by simp)
  rcases orders with _ | ⟨a7, orders⟩
  · exact absurd h (by simp)
  rcases orders with _ | ⟨a8, orders⟩
  · exact absurd h (by simp)
  rcases orders with _ | ⟨a9, orders⟩
  · exact absurd h (by simp)
  rcases orders with _ | ⟨a10, orders⟩
  · exact absurd h (by simp)
  rcases orders with _ | ⟨a11, orders⟩
  · exact absurd h (by simp)
  rcases orders with _ | ⟨a12, orders⟩
  · exact absurd h (by simp)
  rcases orders with _ | ⟨a13, orders⟩
  · refine ⟨?_, ?_, ?_, fun l => batchRun_sizes_len _ l.length l (Nat.le_refl _)⟩
    · simp [batchRun]
    · simp [batchRun]
    · simp [batchRun]
  · simp only [List.length_cons] at h
    omega

/-- Witness for claim C5 on twelve concrete orders. -/
theorem batch_schedule_12_witness :
    ordersW.length = 12 ∧
    (batchRun (enrichOrderWithTransactions cacheEmpty vOracleNone txOracleOk)
      ordersW).batchSizes = [5, 5, 2] ∧
    (batchRun (enrichOrderWithTransactions cacheEmpty vOracleNone txOracleOk)
      ordersW).sleeps = [100, 100] :=
  ⟨rfl,
   (batch_schedule_12 cacheEmpty vOracleNone txOracleOk ordersW rfl).1,
   (batch_schedule_12 cacheEmpty vOracleNone txOracleOk ordersW rfl).2.1⟩

/-! ### Per-order enrichment lemmas -/

theorem fetchOrderTransactions_isSome (fn : Nat → TryRes (List RawTx)) :
    ∃ raw, fetchOrderTransactions fn = some raw := by
  unfold fetchOrderTransactions
  cases hres : (retryWithBackoff fn 3 1000).result with
  | ok v =>
    cases v with
    | none =>
      exact absurd hres (retryGo_result_not_undef fn 1000 3 (by omega) 0)
    | some t => exact ⟨t, rfl⟩
  | error st => exact ⟨[], rfl⟩

theorem skuStage_id (vO : Nat → Option Variant) (o : Order) :
    (skuStage vO o).id = o.id := by
  unfold skuStage
  split
  · split
    · rfl
    · rfl
  · rfl

theorem skuStage_shape (vO : Nat → Option Variant) (o : Order) :
    ∃ li, skuStage vO o = { o with line_items := li } := by
  unfold skuStage
  split
  · split
    · exact ⟨_, rfl⟩
    · exact ⟨o.line_items, rfl⟩
  · exact ⟨o.line_items, rfl⟩

theorem enrichOrderWithTransactions_eq (cache : String → Option SheetEntry)
    (vO : Nat → Option Variant) (txO : Option Nat → Nat → TryRes (List RawTx))
    (o : Order) (raw : List RawTx)
    (hraw : fetchOrderTransactions (txO o.id) = some raw) :
    enrichOrderWithTransactions cache vO txO o =
      { skuStage vO (enrichOrderWithCustomerData cache o) with
        transactions := some (raw.map stripTx) } := by
  have hid : (skuStage vO (enrichOrderWithCustomerData cache o)).id = o.id :=
    skuStage_id vO (enrichOrderWithCustomerData cache o)
  have hbody : enrichOrderBody cache vO txO o = Except.ok
      { skuStage vO (enrichOrderWithCustomerData cache o) with
        transactions := some (raw.map stripTx) } := by
    unfold enrichOrderBody
    rw [hid, hraw]
  unfold enrichOrderWithTransactions
  rw [hbody]
  rfl

/-- Claim C6: a transaction fetch whose retried request fails — including a
rate-limited failure that exhausts the backoff — yields the empty list
rather than propagating the exception (`fetchOrderTransactions` resolves
with `some []`, and it always resolves with a value), and the enriched
order then carries an empty transaction list. -/
theorem tx_fetch_failure_empty (fn : Nat → TryRes (List RawTx)) :
    (∀ st, (retryWithBackoff fn 3 1000).result = Except.error st →
      fetchOrderTransactions fn = some []) ∧
    (fetchOrderTransactions fn).isSome = true ∧
    (∀ (cache : String → Option SheetEntry) (vO : Nat → Option Variant)
      (txO : Option Nat → Nat → TryRes (List RawTx)) (o : Order)
      (st : Option Nat),
      (retryWithBackoff (txO o.id) 3 1000).result = Except.error st →
      (enrichOrderWithTransactions cache vO txO o).transactions = some []) := by
  refine ⟨?_, ?_, ?_⟩
  · intro st h
    unfold fetchOrderTransactions
    rw [h]
  · obtain ⟨raw, hraw⟩ := fetchOrderTransactions_isSome fn
    rw [hraw]
    rfl
  · intro cache vO txO o st h
    have hfe : fetchOrderTransactions (txO o.id) = some [] := by
      unfold fetchOrderTransactions
      rw [h]
    rw [enrichOrderWithTransactions_eq cache vO txO o [] hfe]
    rfl

/-- Witness for claim C6: a plain failure and an exhausted rate limit. -/
theorem tx_fetch_failure_empty_witness :
    (retryWithBackoff txFail500 3 1000).result = Except.error (some 500) ∧
    fetchOrderTransactions txFail500 = some [] ∧
    (retryWithBackoff (txOracle429 orderW.id) 3 1000).result =
      Except.error (some 429) ∧
    (enrichOrderWithTransactions cacheEmpty vOracleNone txOracle429
      orderW).transactions = some [] :=
  ⟨rfl,
   (tx_fetch_failure_empty txFail500).1 (some 500) rfl,
   rfl,
   (tx_fetch_failure_empty txFail500).2.2 cacheEmpty vOracleNone txOracle429
     orderW (some 429) rfl⟩

/-- Claim C7: `enrichOrderWithTransactions` is exactly the catch-wrapper of
its enrichment body: it returns the body's order, the wrapper returns the
original input order unchanged whenever the body fails, and in this
embedding the body never fails (every sub-call swallows its own failures),
so the route layer never observes a per-order exception. -/
theorem per_order_enrichment_no_raise (cache : String → Option SheetEntry)
    (vO : Nat → Option Variant) (txO : Option Nat → Nat → TryRes (List RawTx))
    (o : Order) :
    enrichOrderWithTransactions cache vO txO o =
      jsTryCatch (enrichOrderBody cache vO txO o) o ∧
    (∀ (r : Except JsErr Order) (fallback : Order) (e : JsErr),
      r = Except.error e → jsTryCatch r fallback = fallback) ∧
    (∃ o2, enrichOrderBody cache vO txO o = Except.ok o2) := by
  refine ⟨rfl, ?_, ?_⟩
  · intro r fallback e hr
    rw [hr]
    rfl
  · obtain ⟨raw, hraw⟩ := fetchOrderTransactions_isSome
      (txO (skuStage vO (enrichOrderWithCustomerData cache o)).id)
    refine ⟨{ skuStage vO (enrichOrderWithCustomerData cache o) with
      transactions := some (raw.map stripTx) }, ?_⟩
    unfold enrichOrderBody
    rw [hraw]

/-- Witness for claim C7 at concrete oracles and order. -/
theorem per_order_enrichment_no_raise_witness :
    enrichOrderWithTransactions cacheEmpty vOracleNone txOracle429 orderW =
      jsTryCatch (enrichOrderBody cacheEmpty vOracleNone txOracle429 orderW)
        orderW ∧
    jsTryCatch (Except.error JsErr.typeError) emptyOrder = emptyOrder ∧
    (∃ o2, enrichOrderBody cacheEmpty vOracleNone txOracle429 orderW =
      Except.ok o2) :=
  ⟨(per_order_enrichment_no_raise cacheEmpty vOracleNone txOracle429 orderW).1,
   (per_order_enrichment_no_raise cacheEmpty vOracleNone txOracle429 orderW).2.1
     (Except.error JsErr.typeError) emptyOrder JsErr.typeError rfl,
   (per_order_enrichment_no_raise cacheEmpty vOracleNone txOracle429 orderW).2.2⟩

/-! ### SKU enrichment lemmas -/

theorem enrichLineItemsWithSKU_eq_map (vO : Nat → Option Variant)
    (items : List LineItem) :
    enrichLineItemsWithSKU vO items = items.map (enrichLineItem vO) := by
  induction items with
  | nil => rfl
  | cons i rest ih => simp [enrichLineItemsWithSKU, ih]

/-- Claim C9: SKU enrichment returns a list of the same length in the same
order; an item with a (truthy) SKU, or without a (truthy) variant
reference, or whose variant fetch fails, is unchanged; only an item
lacking a SKU whose variant fetch succeeds is replaced by a copy of itself
with `sku` and `barcode` taken from the variant (null when the variant
lacks them).  No item is dropped and no failure aborts the loop. -/
theorem line_item_enrichment_frame (vO : Nat → Option Variant)
    (items : List LineItem) :
    (enrichLineItemsWithSKU vO items).length = items.length ∧
    (∀ (i : Nat) (item : LineItem), items[i]? = some item →
      (strTruthy item.sku = true →
        (enrichLineItemsWithSKU vO items)[i]? = some item) ∧
      (item.variant_id = none →
        (enrichLineItemsWithSKU vO items)[i]? = some item) ∧
      (item.variant_id = some 0 →
        (enrichLineItemsWithSKU vO items)[i]? = some item) ∧
      (∀ vid, item.variant_id = some vid → vO vid = none →
        (enrichLineItemsWithSKU vO items)[i]? = some item) ∧
      (∀ vid var, strTruthy item.sku = false → item.variant_id = some vid →
        vid ≠ 0 → vO vid = some var →
        (enrichLineItemsWithSKU vO items)[i]? = some
          { item with sku := jsOrS var.sku none
                      barcode := jsOrS var.barcode none })) := by
  constructor
  · rw [enrichLineItemsWithSKU_eq_map]
    exact List.length_map _ _
  · intro i item hitem
    have hmap : (enrichLineItemsWithSKU vO items)[i]? =
        some (enrichLineItem vO item) := by
      rw [enrichLineItemsWithSKU_eq_map, List.getElem?_map, hitem]
      rfl
    refine ⟨?_, ?_, ?_, ?_, ?_⟩
    · intro hs
      rw [hmap]
      simp [enrichLineItem, hs]
    · intro hv
      rw [hmap]
      by_cases hs : strTruthy item.sku <;> simp [enrichLineItem, hs, hv]
    · intro hv
      rw [hmap]
      by_cases hs : strTruthy item.sku <;> simp [enrichLineItem, hs, hv]
    · intro vid hv hvo
      rw [hmap]
      by_cases hs : strTruthy item.sku
      · simp [enrichLineItem, hs]
      · by_cases h0 : vid = 0 <;> simp [enrichLineItem, hs, hv, h0, hvo]
    · intro vid var hs hv h0 hvo
      rw [hmap]
      simp [enrichLineItem, hs, hv, h0, hvo]

/-- Witness for claim C9: an SKU-less item whose variant fetch succeeds. -/
theorem line_item_enrichment_frame_witness :
    ([itemNoSkuW])[0]? = some itemNoSkuW ∧
    strTruthy itemNoSkuW.sku = false ∧
    itemNoSkuW.variant_id = some 5 ∧
    vOracleW 5 = some variantW ∧
    (enrichLineItemsWithSKU vOracleW [itemNoSkuW])[0]? =
      some { itemNoSkuW with sku := jsOrS variantW.sku none
                             barcode := jsOrS variantW.barcode none } :=
  ⟨rfl, rfl, rfl, rfl,
   ((line_item_enrichment_frame vOracleW [itemNoSkuW]).2 0 itemNoSkuW
     rfl).2.2.2.2 5 variantW rfl rfl (by decide) rfl⟩

/-- Claim C10: the per-order enrichment sets or replaces only the fields
`customer`, `customer_info`, `shipping_address`, `billing_address`,
`line_items` and `transactions`; every other order field is preserved, and
the attached transactions are exactly the fetched ones stripped to the
nine kept fields. -/
theorem order_enrichment_frame (cache : String → Option SheetEntry)
    (vO : Nat → Option Variant) (txO : Option Nat → Nat → TryRes (List RawTx))
    (o : Order) :
    (enrichOrderWithTransactions cache vO txO o).id = o.id ∧
    (enrichOrderWithTransactions cache vO txO o).order_number = o.order_number ∧
    (enrichOrderWithTransactions cache vO txO o).number = o.number ∧
    (enrichOrderWithTransactions cache vO txO o).email = o.email ∧
    (enrichOrderWithTransactions cache vO txO o).contact_email =
      o.contact_email ∧
    (enrichOrderWithTransactions cache vO txO o).phone = o.phone ∧
    (enrichOrderWithTransactions cache vO txO o).financial_status =
      o.financial_status ∧
    (enrichOrderWithTransactions cache vO txO o).rest = o.rest ∧
    (∃ raw, fetchOrderTransactions (txO o.id) = some raw ∧
      (enrichOrderWithTransactions cache vO txO o).transactions =
        some (raw.map stripTx)) := by
  obtain ⟨raw, hraw⟩ := fetchOrderTransactions_isSome (txO o.id)
  have heq := enrichOrderWithTransactions_eq cache vO txO o raw hraw
  obtain ⟨li, hli⟩ := skuStage_shape vO (enrichOrderWithCustomerData cache o)
  rw [heq, hli]
  exact ⟨rfl, rfl, rfl, rfl, rfl, rfl, rfl, rfl, raw, hraw, rfl⟩
